import Mathlib

/-!
Verification of the CapsWriter-Offline shortcut/event state machine.

Shallow embedding of `util/client/shortcut/emulator.py`,
`util/client/shortcut/task.py` and `util/client/shortcut/shortcut_manager.py`.

Events are modelled at the normalized `(canonical name, down|up)` level.
Timestamps and thresholds are integers (`time.time()` values scaled to ticks);
only comparisons and subtraction of times occur in the code, so the ordered
ring `Int` is a faithful carrier.

The repository files `key_mapper.py`, `event_handler.py` and
`shortcut_config.py` are not in the sources; where their behaviour is needed
it is modelled from the spec and marked as such in the doc comment.
-/

namespace CapsWriter

/-- Direction of a normalized input event: key/button pressed or released. -/
inductive Dir where
  | down
  | up
deriving DecidableEq, Repr

/-- Modelled from the spec: the immutable Trigger Definition supplied by the
missing `shortcut_config.py` (`Shortcut` class): canonical key name, device
type, enabled flag, activation kind (hold vs click), suppression flag,
minimum-hold threshold, and whether the key is toggle-capable
(`is_toggle_key()`, a caps/num/scroll-style lock key). -/
structure Shortcut where
  key : String
  ty : String
  enabled : Bool
  hold_mode : Bool
  suppress : Bool
  toggle_key : Bool
  threshold : Int
deriving DecidableEq, Repr

/-- Mutable runtime state of `ShortcutTask` (`task.py`): the in-flight capture
handle `self.task` (an opaque id, `none` when cleared), `recording_start_time`,
`is_recording`, the click-mode `pressed`/`released` flags, the threading
`Event` flag, and the toggle snapshot `_toggle_state_at_press`. -/
structure TaskState where
  task : Option Nat
  recording_start_time : Int
  is_recording : Bool
  pressed : Bool
  released : Bool
  event_flag : Bool
  toggle_state_at_press : Option Bool
deriving DecidableEq, Repr

/-- The fresh task state built by `ShortcutTask.__init__`. -/
def TaskState.init : TaskState :=
  { task := none
    recording_start_time := 0
    is_recording := false
    pressed := false
    released := true
    event_flag := false
    toggle_state_at_press := none }

/-- An entry put on the external action queue `state.queue_in`:
`{'type': 'begin', 'time': t}` or `{'type': 'finish', 'time': t}`. -/
inductive ActionEvent where
  | beginEvt (t : Int)
  | finishEvt (t : Int)
deriving DecidableEq, Repr

/-! ## Emulator (`emulator.py`) -/

/-- `ShortcutEmulator._emulating_keys`: the Emulation Set. -/
abbrev EmuSet := Finset String

/-- `ShortcutEmulator.is_emulating`. -/
def is_emulating (emu : EmuSet) (key_name : String) : Bool :=
  key_name ∈ emu

/-- `ShortcutEmulator.clear_emulating_flag`. -/
def clear_emulating_flag (emu : EmuSet) (key_name : String) : EmuSet :=
  emu.erase key_name

/-- `ShortcutEmulator.emulate_key`: adds the name to the emulating set, then
asks the backend to `press_and_release`; whether synthesis succeeds or raises,
the flag stays set when the call returns (it is cleared later by the
dispatcher on the observed "up"). The returned value is the new set. -/
def emulate_key (emu : EmuSet) (key_name : String) : EmuSet :=
  insert key_name emu

/-- `ShortcutEmulator.emulate_mouse_click`: adds the button name to the
emulating set, logs that the keyboard backend cannot synthesize mouse buttons,
and returns without synthesizing anything and without removing the flag. -/
def emulate_mouse_click (emu : EmuSet) (button_name : String) : EmuSet :=
  insert button_name emu

/-! ## Trigger task (`task.py`) -/

/-- Restore decision of `ShortcutTask._restore_key_if_needed`, given the
platform, the trigger's suppression flag, the press-time snapshot
`_toggle_state_at_press` and the live `keyboard_lib.is_toggled` read (which is
`none` when the read raised). Returns whether `_restore_key` is invoked. -/
def restore_needed (is_windows : Bool) (sup : Bool)
    (snapshot live : Option Bool) : Bool :=
  if is_windows then
    !sup
  else
    match snapshot, live with
    | some s, some c => decide (c ≠ s)
    | none, _ => true
    | some _, none => true

/-- Restore requests issued by one call of `_restore_key_if_needed`: the list
of keys passed to `manager.schedule_restore` (empty or a singleton). -/
def restore_requests (is_windows : Bool) (sh : Shortcut)
    (live : Option Bool) (st : TaskState) : List String :=
  if restore_needed is_windows sh.suppress st.toggle_state_at_press live then
    [sh.key]
  else
    []

/-- The state reached inside `ShortcutTask.launch` after the toggle snapshot,
`recording_start_time` and `is_recording = True` assignments, but before
`self.task` is assigned on the last line. `toggle_read` is the value of
`keyboard_lib.is_toggled` at press time (`none` when the read raised). -/
def launch_mid (sh : Shortcut) (is_windows : Bool) (toggle_read : Option Bool)
    (now : Int) (st : TaskState) : TaskState :=
  let st1 :=
    if sh.toggle_key && !is_windows then
      { st with toggle_state_at_press := toggle_read }
    else
      st
  { st1 with recording_start_time := now, is_recording := true }

/-- `ShortcutTask.launch`: snapshot the toggle state (non-Windows toggle keys
only), record the start time, set `is_recording`, put one begin event on the
queue, and store the capture handle. Returns the new state and the queue
events. -/
def launch (sh : Shortcut) (is_windows : Bool) (toggle_read : Option Bool)
    (now : Int) (handle : Nat) (st : TaskState) :
    TaskState × List ActionEvent :=
  let mid := launch_mid sh is_windows toggle_read now st
  ({ mid with task := some handle }, [ActionEvent.beginEvt now])

/-- `ShortcutTask.cancel`: clears `is_recording`, then calls
`self.task.cancel()` with no guard — when the handle is `None` this raises
`AttributeError`; otherwise the handle is cleared and, for toggle-capable
triggers, `_restore_key_if_needed` runs. Returns the new state, the queue
events put by the call (none: the source body contains no `queue_in.put`)
and the restore requests, or the error. -/
def cancel (sh : Shortcut) (is_windows : Bool) (live : Option Bool)
    (st : TaskState) :
    Except String (TaskState × List ActionEvent × List String) :=
  let st1 := { st with is_recording := false }
  match st1.task with
  | none => Except.error "AttributeError: NoneType object has no attribute cancel"
  | some _ =>
    let st2 := { st1 with task := none }
    if sh.toggle_key then
      Except.ok (st2, [], restore_requests is_windows sh live st2)
    else
      Except.ok (st2, [], [])

/-- `ShortcutTask.finish`: clears `is_recording`, puts one finish event with
the current time on the queue, and for toggle-capable triggers runs
`_restore_key_if_needed`. Returns the new state, the queue events and the
restore requests. -/
def finish (sh : Shortcut) (is_windows : Bool) (live : Option Bool)
    (now : Int) (st : TaskState) :
    TaskState × List ActionEvent × List String :=
  let st1 := { st with is_recording := false }
  if sh.toggle_key then
    (st1, [ActionEvent.finishEvt now], restore_requests is_windows sh live st1)
  else
    (st1, [ActionEvent.finishEvt now], [])

/-! ## Manager state and anti-self-capture checks (`shortcut_manager.py`) -/

/-- The dispatcher-relevant state of `ShortcutManager`: the Emulation Set
(owned by `self._emulator`), the Restoring Set (`self._restoring_keys`) and
the registered task table `self.tasks` (a key-indexed association list). -/
structure MgrState where
  emulating : EmuSet
  restoring : Finset String
  tasks : List (String × Shortcut × TaskState)
deriving DecidableEq

/-- Lookup in `self.tasks` (Python dict keyed by canonical name). -/
def find_task (tasks : List (String × Shortcut × TaskState)) (k : String) :
    Option (Shortcut × TaskState) :=
  match tasks with
  | [] => none
  | (k1, sh, st) :: rest => if k1 = k then some (sh, st) else find_task rest k

/-- Replace the task state stored under key `k`. -/
def update_task (tasks : List (String × Shortcut × TaskState)) (k : String)
    (st : TaskState) : List (String × Shortcut × TaskState) :=
  match tasks with
  | [] => []
  | (k1, sh, st1) :: rest =>
    if k1 = k then (k1, sh, st) :: rest
    else (k1, sh, st1) :: update_task rest k st

/-- `ShortcutManager._check_emulating`, at the normalized event level: if the
name is not in the Emulation Set return `false` (not handled); otherwise
return `true` (the filter returns early, the event is never routed), clearing
the flag exactly on "up" messages (`WM_KEYUP`/`WM_SYSKEYUP`, or
`WM_XBUTTONUP` when `is_mouse`). -/
def check_emulating (emu : EmuSet) (key_name : String) (dir : Dir)
    (is_mouse : Bool) : Bool × EmuSet :=
  if is_emulating emu key_name then
    (true,
      match is_mouse, dir with
      | _, Dir.up => clear_emulating_flag emu key_name
      | _, Dir.down => emu)
  else
    (false, emu)

/-- `ShortcutManager._check_restoring`: if the name is not in the Restoring
Set return `false`; otherwise return `true` (the event is swallowed from
trigger logic), clearing the entry exactly on "up" messages. -/
def check_restoring (res : Finset String) (key_name : String) (dir : Dir) :
    Bool × Finset String :=
  if key_name ∈ res then
    (true, match dir with | Dir.up => res.erase key_name | Dir.down => res)
  else
    (false, res)

/-- Where the dispatcher sent a normalized event. -/
inductive Decision where
  | swallowedEmulating
  | swallowedRestoring
  | noTask
  | routed (dir : Dir)
deriving DecidableEq, Repr

/-- The routing logic of the Windows keyboard `win32_event_filter`
(`create_keyboard_filter`) at the normalized `(name, down|up)` level:
anti-self-capture checks first (`_check_emulating`, then `_check_restoring`),
then table lookup, then routing to the event handler. Returns the updated
manager state and the routing decision. -/
def keyboard_filter_win (m : MgrState) (key_name : String) (dir : Dir) :
    MgrState × Decision :=
  let r1 := check_emulating m.emulating key_name dir false
  if r1.1 then
    ({ m with emulating := r1.2 }, Decision.swallowedEmulating)
  else
    let r2 := check_restoring m.restoring key_name dir
    if r2.1 then
      ({ m with restoring := r2.2 }, Decision.swallowedRestoring)
    else
      match find_task m.tasks key_name with
      | none => (m, Decision.noTask)
      | some _ => (m, Decision.routed dir)

/-- `ShortcutManager._keyboard_keydown` (non-Windows hook callback): returns
without clearing any flag when the name is emulating or restoring, ignores
unregistered names, otherwise routes the down event. -/
def keyboard_lib_keydown (m : MgrState) (key_name : String) :
    MgrState × Decision :=
  if is_emulating m.emulating key_name then
    (m, Decision.swallowedEmulating)
  else if key_name ∈ m.restoring then
    (m, Decision.swallowedRestoring)
  else
    match find_task m.tasks key_name with
    | none => (m, Decision.noTask)
    | some _ => (m, Decision.routed Dir.down)

/-- `ShortcutManager._keyboard_keyup` (non-Windows hook callback): clears the
emulating flag and returns when the name is emulating; else clears the
restoring flag and returns when restoring; else routes the up event. -/
def keyboard_lib_keyup (m : MgrState) (key_name : String) :
    MgrState × Decision :=
  if is_emulating m.emulating key_name then
    ({ m with emulating := clear_emulating_flag m.emulating key_name },
      Decision.swallowedEmulating)
  else if key_name ∈ m.restoring then
    ({ m with restoring := m.restoring.erase key_name },
      Decision.swallowedRestoring)
  else
    match find_task m.tasks key_name with
    | none => (m, Decision.noTask)
    | some _ => (m, Decision.routed Dir.up)

/-- The routing logic of the Windows mouse `win32_event_filter`
(`create_mouse_filter`) at the normalized level, after the XBUTTON message
and button-name extraction: only `_check_emulating` runs (there is no
`_check_restoring` call in this filter), then table lookup, then routing. -/
def mouse_filter_win (m : MgrState) (button_name : String) (dir : Dir) :
    MgrState × Decision :=
  let r1 := check_emulating m.emulating button_name dir true
  if r1.1 then
    ({ m with emulating := r1.2 }, Decision.swallowedEmulating)
  else
    match find_task m.tasks button_name with
    | none => (m, Decision.noTask)
    | some _ => (m, Decision.routed dir)

/-- Side effects of one mouse keyup dispatch: queue events, restore requests
(`schedule_restore` keys), and the re-presses submitted to the pool
(`_pool.submit(emulate_mouse_click, ...)` button names). -/
structure TaskOut where
  actions : List ActionEvent
  restores : List String
  repress : List String
deriving DecidableEq, Repr

/-- The empty side-effect record. -/
def TaskOut.none : TaskOut := { actions := [], restores := [], repress := [] }

/-- `ShortcutManager._handle_mouse_keyup`: click mode flips
`pressed`/`released` and sets the event; hold mode ignores the release unless
recording, then compares `now - recording_start_time` against the threshold:
shorter presses cancel the task (submitting one `emulate_mouse_click`
re-press to the pool when the trigger suppresses), longer ones finish it.
A raise inside `task.cancel()` propagates (there is no handler here). -/
def handle_mouse_keyup (sh : Shortcut) (st : TaskState) (now : Int)
    (is_windows : Bool) (live : Option Bool) :
    Except String (TaskState × TaskOut) :=
  if !sh.hold_mode then
    if st.pressed then
      let st1 := { st with pressed := false, released := true, event_flag := true }
      Except.ok (st1, TaskOut.none)
    else
      Except.ok (st, TaskOut.none)
  else if !st.is_recording then
    Except.ok (st, TaskOut.none)
  else
    let duration := now - st.recording_start_time
    if duration < sh.threshold then
      match cancel sh is_windows live st with
      | Except.error e => Except.error e
      | Except.ok (st1, acts, restores) =>
        Except.ok (st1,
          { actions := acts, restores := restores,
            repress := if sh.suppress then [sh.key] else [] })
    else
      let r := finish sh is_windows live now st
      Except.ok (r.1, { actions := r.2.1, restores := r.2.2, repress := [] })

/-- The full Windows mouse filter on a normalized event, executing the keyup
handler when the event routes to a task. `create_mouse_filter` wraps nothing
in a try/except, so an exception raised by `_handle_mouse_keyup` (for
instance `task.cancel()` on a `None` handle) propagates out of the filter:
modelled by propagating `Except.error`. The down branch calls
`handle_keydown` of the missing `event_handler.py` and is modelled as
returning normally with no observable output. -/
def mouse_filter_win_full (m : MgrState) (button_name : String) (dir : Dir)
    (now : Int) (is_windows : Bool) (live : Option Bool) :
    Except String (MgrState × TaskOut) :=
  let r1 := check_emulating m.emulating button_name dir true
  if r1.1 then
    Except.ok ({ m with emulating := r1.2 }, TaskOut.none)
  else
    match find_task m.tasks button_name with
    | none => Except.ok (m, TaskOut.none)
    | some (sh, st) =>
      match dir with
      | Dir.down => Except.ok (m, TaskOut.none)
      | Dir.up =>
        match handle_mouse_keyup sh st now is_windows live with
        | Except.error e => Except.error e
        | Except.ok (st1, out) =>
          Except.ok ({ m with tasks := update_task m.tasks button_name st1 },
            out)

/-- `ShortcutManager.schedule_restore`: adds the key to the Restoring Set and
submits the delayed `do_restore` job to the pool. -/
def schedule_restore (res : Finset String) (key : String) :
    Finset String × List String :=
  (insert key res, [key])

/-! ## Chord tracking (`_combo_hook_cb` in `_setup_keyboard_lib_hooks`) -/

/-- One chord definition from `self._combo_defs`: the configured key string
and the set of member names required concurrently. The runtime `active` flag
is carried alongside as a `Bool`. -/
structure ComboDef where
  key : String
  keys : Finset String
deriving DecidableEq

/-- A raw event delivered by the keyboard library hook: `e.name` (possibly
absent or empty, both falsy in Python) and `e.event_type`. -/
structure RawKeyEvent where
  name : Option String
  event_type : Dir
deriving DecidableEq

/-- The pressed-set update performed by `_combo_hook_cb` on one raw event:
falsy names are skipped, otherwise the lower-cased name is added on "down"
and discarded on "up". -/
def pressed_step (pressed : Finset String) (e : RawKeyEvent) : Finset String :=
  match e.name with
  | none => pressed
  | some nm0 =>
    if nm0 = "" then pressed
    else
      match e.event_type with
      | Dir.down => insert nm0.toLower pressed
      | Dir.up => pressed.erase nm0.toLower

/-- The per-combo loop body of `_combo_hook_cb`: for each combo in order,
recompute `active_now = keys ⊆ pressed`, fire one synthetic down on a rising
edge, one synthetic up on a falling edge, nothing otherwise. Returns the
updated combo list and the synthetic `(key, dir)` events in firing order. -/
def combo_scan (pressed : Finset String) :
    List (ComboDef × Bool) → List (ComboDef × Bool) × List (String × Dir)
  | [] => ([], [])
  | (c, act) :: rest =>
    let active_now := decide (c.keys ⊆ pressed)
    let here :=
      if active_now && !act then ([(c.key, Dir.down)], true)
      else if !active_now && act then ([(c.key, Dir.up)], false)
      else (([] : List (String × Dir)), act)
    let r := combo_scan pressed rest
    ((c, here.2) :: r.1, here.1 ++ r.2)

/-- `_combo_hook_cb` on one raw event: skip falsy names, update the pressed
set, then run the combo loop. Returns the new pressed set, the new combo
list and the synthetic events fed back into the dispatcher. -/
def combo_hook_cb (pressed : Finset String) (combos : List (ComboDef × Bool))
    (e : RawKeyEvent) :
    Finset String × List (ComboDef × Bool) × List (String × Dir) :=
  match e.name with
  | none => (pressed, combos, [])
  | some nm0 =>
    if nm0 = "" then (pressed, combos, [])
    else
      let pressed1 := pressed_step pressed e
      let r := combo_scan pressed1 combos
      (pressed1, r.1, r.2)

/-- Run `_combo_hook_cb` over a whole raw event sequence, accumulating the
synthetic events in order. -/
def combo_run (pressed : Finset String) (combos : List (ComboDef × Bool)) :
    List RawKeyEvent → Finset String × List (ComboDef × Bool) × List (String × Dir)
  | [] => (pressed, combos, [])
  | e :: es =>
    let r := combo_hook_cb pressed combos e
    let rr := combo_run r.1 r.2.1 es
    (rr.1, rr.2.1, r.2.2 ++ rr.2.2)

/-- The combo's active flag after `_combo_hook_cb` processes one raw event
(unchanged when the event is skipped, else recomputed from the new pressed
set). -/
def combo_active_step (c : ComboDef) (pressed : Finset String) (act : Bool)
    (e : RawKeyEvent) : Bool :=
  match e.name with
  | none => act
  | some nm0 =>
    if nm0 = "" then act
    else decide (c.keys ⊆ pressed_step pressed e)

/-- The trace of the combo's active flag over a raw event sequence. -/
def combo_act_trace (c : ComboDef) (pressed : Finset String) (act : Bool) :
    List RawKeyEvent → List Bool
  | [] => []
  | e :: es =>
    let a1 := combo_active_step c pressed act e
    a1 :: combo_act_trace c (pressed_step pressed e) a1 es

/-- Number of false-to-true transitions in a flag trace, given the initial
flag value. -/
def rising_edges : Bool → List Bool → Nat
  | _, [] => 0
  | prev, b :: bs => (if !prev && b then 1 else 0) + rising_edges b bs

/-- Number of true-to-false transitions in a flag trace, given the initial
flag value. -/
def falling_edges : Bool → List Bool → Nat
  | _, [] => 0
  | prev, b :: bs => (if prev && !b then 1 else 0) + falling_edges b bs

/-- Count of synthetic "down" events in a synthetic event list. -/
def count_downs (evts : List (String × Dir)) : Nat :=
  (evts.filter (fun p => decide (p.2 = Dir.down))).length

/-- Count of synthetic "up" events in a synthetic event list. -/
def count_ups (evts : List (String × Dir)) : Nat :=
  (evts.filter (fun p => decide (p.2 = Dir.up))).length

/-! ## Fixtures for concrete witnesses -/

/-- A hold-mode mouse side-button trigger (suppress on, threshold 30 ticks). -/
def shMouse : Shortcut :=
  { key := "x1", ty := "mouse", enabled := true, hold_mode := true,
    suppress := true, toggle_key := false, threshold := 30 }

/-- A hold-mode toggle-capable keyboard trigger with suppression disabled. -/
def shToggle : Shortcut :=
  { key := "caps lock", ty := "keyboard", enabled := true, hold_mode := true,
    suppress := false, toggle_key := true, threshold := 30 }

/-- A task state that is recording with a live capture handle. -/
def stRec : TaskState :=
  { task := some 7, recording_start_time := 0, is_recording := true,
    pressed := true, released := false, event_flag := false,
    toggle_state_at_press := some true }

/-- A task state with `is_recording` set but no capture handle (the window
`ShortcutManager.stop` can observe, or mid-`launch`). -/
def stGhost : TaskState :=
  { task := none, recording_start_time := 0, is_recording := true,
    pressed := false, released := true, event_flag := false,
    toggle_state_at_press := none }

/-- Manager state with the x1 trigger registered and "x1" in the Restoring
Set. -/
def mRestoringX1 : MgrState :=
  { emulating := ∅, restoring := {"x1"},
    tasks := [("x1", shMouse, TaskState.init)] }

/-- Manager state with the x1 trigger registered, recording, but with no
capture handle. -/
def mGhost : MgrState :=
  { emulating := ∅, restoring := ∅, tasks := [("x1", shMouse, stGhost)] }

/-! ## Helper characterizations -/

/-- `cancel` raises when the capture handle is absent. -/
theorem cancel_none (sh : Shortcut) (is_windows : Bool) (live : Option Bool)
    (st : TaskState) (htask : st.task = none) :
    cancel sh is_windows live st =
      Except.error "AttributeError: NoneType object has no attribute cancel" := by
  obtain ⟨t, r, ir, p, rl, ev, tg⟩ := st
  simp only [TaskState.task] at htask
  subst htask
  rfl

/-- `cancel` with a live capture handle clears `is_recording` and the handle,
emits nothing, and issues the toggle-conditional restore requests. -/
theorem cancel_some (sh : Shortcut) (is_windows : Bool) (live : Option Bool)
    (st : TaskState) (h : Nat) (htask : st.task = some h) :
    cancel sh is_windows live st =
      Except.ok ({ st with is_recording := false, task := none }, [],
        if sh.toggle_key then
          restore_requests is_windows sh live
            { st with is_recording := false, task := none }
        else []) := by
  obtain ⟨t, r, ir, p, rl, ev, tg⟩ := st
  simp only [TaskState.task] at htask
  subst htask
  simp only [cancel]
  split <;> simp_all

/-! ## Claims -/

/-- C1: anti-self-capture. For every normalized `(name, down|up)` event whose
canonical name is in the Emulation Set, the dispatcher (Windows keyboard
filter, Windows mouse filter, and the non-Windows keyboard callbacks) never
routes the event to any Trigger Task; an "up" event clears that name's
emulating flag and a "down" event leaves it set. -/
theorem c1_anti_self_capture (m : MgrState) (name : String)
    (hemu : name ∈ m.emulating) :
    (∀ dir, (keyboard_filter_win m name dir).2 = Decision.swallowedEmulating) ∧
    (keyboard_filter_win m name Dir.up).1.emulating = m.emulating.erase name ∧
    (keyboard_filter_win m name Dir.down).1.emulating = m.emulating ∧
    (∀ dir, (mouse_filter_win m name dir).2 = Decision.swallowedEmulating) ∧
    (mouse_filter_win m name Dir.up).1.emulating = m.emulating.erase name ∧
    (mouse_filter_win m name Dir.down).1.emulating = m.emulating ∧
    (keyboard_lib_keydown m name).2 = Decision.swallowedEmulating ∧
    (keyboard_lib_keydown m name).1 = m ∧
    (keyboard_lib_keyup m name).2 = Decision.swallowedEmulating ∧
    (keyboard_lib_keyup m name).1.emulating = m.emulating.erase name := by
  have h : is_emulating m.emulating name = true := by
    simp [is_emulating, hemu]
  refine ⟨fun dir => ?_, ?_, ?_, fun dir => ?_, ?_, ?_, ?_, ?_, ?_, ?_⟩ <;>
    first
      | (cases dir <;>
          simp [keyboard_filter_win, mouse_filter_win, check_emulating,
            clear_emulating_flag, h])
      | simp [keyboard_filter_win, mouse_filter_win, keyboard_lib_keydown,
          keyboard_lib_keyup, check_emulating, clear_emulating_flag, h]

/-- Witness for C1: capslock is in the Emulation Set; the Windows keyboard
filter swallows its down event and leaves the flag, and the up event erases
it. -/
theorem c1_anti_self_capture_witness :
    ("caps lock" ∈ ({"caps lock"} : Finset String)) ∧
    ((keyboard_filter_win ⟨{"caps lock"}, ∅, []⟩ "caps lock" Dir.down).2 =
      Decision.swallowedEmulating) := by
  refine ⟨by decide, ?_⟩
  exact (c1_anti_self_capture ⟨{"caps lock"}, ∅, []⟩ "caps lock"
    (by decide)).1 Dir.down

/-- C2: action-sink protocol. A launch emits exactly the begin event stamped
with the start time; finishing the launched activation emits exactly one
finish event after it; cancelling the launched activation succeeds and emits
no event at all. -/
theorem c2_action_sink_protocol (sh : Shortcut) (is_windows : Bool)
    (toggle_read live : Option Bool) (t1 t2 : Int) (handle : Nat)
    (st : TaskState) :
    (launch sh is_windows toggle_read t1 handle st).2 =
      [ActionEvent.beginEvt t1] ∧
    (finish sh is_windows live t2
        (launch sh is_windows toggle_read t1 handle st).1).2.1 =
      [ActionEvent.finishEvt t2] ∧
    (launch sh is_windows toggle_read t1 handle st).2 ++
        (finish sh is_windows live t2
          (launch sh is_windows toggle_read t1 handle st).1).2.1 =
      [ActionEvent.beginEvt t1, ActionEvent.finishEvt t2] ∧
    (∃ r, cancel sh is_windows live
        (launch sh is_windows toggle_read t1 handle st).1 = Except.ok r ∧
      r.2.1 = []) := by
  have hfin : (finish sh is_windows live t2
      (launch sh is_windows toggle_read t1 handle st).1).2.1 =
      [ActionEvent.finishEvt t2] := by
    simp only [finish]
    split <;> rfl
  refine ⟨rfl, hfin, by rw [hfin]; rfl, ?_⟩
  simp only [cancel, launch, launch_mid]
  split <;> exact ⟨_, rfl, rfl⟩

/-- C3: hold-mode threshold. For a hold-mode trigger with an up event while
recording (with a live capture handle): a release before the threshold
cancels the task, emits no finish action, and schedules exactly one re-press
of the same button via the pool exactly when suppression is enabled; a
release at or past the threshold emits one finish action stamped with the
current time and schedules no re-press. -/
theorem c3_hold_threshold (sh : Shortcut) (st : TaskState) (now : Int)
    (is_windows : Bool) (live : Option Bool) (h : Nat)
    (hhold : sh.hold_mode = true) (hrec : st.is_recording = true)
    (htask : st.task = some h) :
    (now - st.recording_start_time < sh.threshold →
      ∃ st1 out, handle_mouse_keyup sh st now is_windows live =
          Except.ok (st1, out) ∧
        st1.is_recording = false ∧ st1.task = none ∧
        out.actions = [] ∧
        out.repress = if sh.suppress then [sh.key] else []) ∧
    (sh.threshold ≤ now - st.recording_start_time →
      ∃ st1 out, handle_mouse_keyup sh st now is_windows live =
          Except.ok (st1, out) ∧
        out.actions = [ActionEvent.finishEvt now] ∧ out.repress = []) := by
  constructor
  · intro hlt
    simp only [handle_mouse_keyup, hhold, hrec, Bool.not_true,
      Bool.false_eq_true, if_false, if_pos hlt,
      cancel_some sh is_windows live st h htask]
    exact ⟨_, _, rfl, rfl, rfl, rfl, rfl⟩
  · intro hge
    have hlt : ¬ (now - st.recording_start_time < sh.threshold) := not_lt.mpr hge
    simp only [handle_mouse_keyup, hhold, hrec, Bool.not_true,
      Bool.false_eq_true, if_false, if_neg hlt]
    simp only [finish]
    split
    · exact ⟨_, _, rfl, rfl, rfl⟩
    · exact ⟨_, _, rfl, rfl, rfl⟩

/-- Witness for C3: the x1 hold trigger (threshold 30, suppress on),
recording since tick 0, released at tick 10: the task is cancelled, no
finish is emitted, and one re-press of "x1" goes to the pool. -/
theorem c3_hold_threshold_witness :
    shMouse.hold_mode = true ∧ stRec.is_recording = true ∧
      stRec.task = some 7 ∧ (10 : Int) - stRec.recording_start_time < shMouse.threshold ∧
    (∃ st1 out, handle_mouse_keyup shMouse stRec 10 true none =
        Except.ok (st1, out) ∧
      st1.is_recording = false ∧ st1.task = none ∧
      out.actions = [] ∧
      out.repress = if shMouse.suppress then [shMouse.key] else []) := by
  refine ⟨rfl, rfl, rfl, by decide, ?_⟩
  exact (c3_hold_threshold shMouse stRec 10 true none 7 rfl rfl rfl).1 (by decide)

/-- C4: toggle-key restoration policy, the decision of
`_restore_key_if_needed`. On Windows a restore is scheduled iff suppression
was disabled; elsewhere a restore is scheduled iff the live toggle read
differs from the press-time snapshot, except that a missing snapshot or a
failed live read schedules it unconditionally. -/
theorem c4_toggle_restoration_policy :
    (∀ (sh : Shortcut) (live : Option Bool) (st : TaskState),
      restore_requests true sh live st =
        if sh.suppress then [] else [sh.key]) ∧
    (∀ (sh : Shortcut) (s c : Bool) (st : TaskState),
      st.toggle_state_at_press = some s →
      restore_requests false sh (some c) st =
        if c = s then [] else [sh.key]) ∧
    (∀ (sh : Shortcut) (live : Option Bool) (st : TaskState),
      st.toggle_state_at_press = none →
      restore_requests false sh live st = [sh.key]) ∧
    (∀ (sh : Shortcut) (st : TaskState),
      restore_requests false sh none st = [sh.key]) := by
  refine ⟨fun sh live st => ?_, fun sh s c st hsnap => ?_,
    fun sh live st hsnap => ?_, fun sh st => ?_⟩
  · simp only [restore_requests, restore_needed]
    cases hs : sh.suppress <;> simp
  · simp only [restore_requests, restore_needed, hsnap]
    by_cases hcs : c = s <;> simp [hcs]
  · cases live <;> simp [restore_requests, restore_needed, hsnap]
  · cases hsnap : st.toggle_state_at_press <;>
      simp [restore_requests, restore_needed, hsnap]

/-- Witness for C4: the capslock trigger, snapshot on, live read on (equal):
no restore on Linux; snapshot on, live read off: restore scheduled. -/
theorem c4_toggle_restoration_policy_witness :
    stRec.toggle_state_at_press = some true ∧
    restore_requests false shToggle (some true) stRec = [] ∧
    restore_requests false shToggle (some false) stRec = [shToggle.key] := by
  refine ⟨rfl, ?_, ?_⟩
  · have h := (c4_toggle_restoration_policy.2.1 shToggle true true stRec rfl)
    simpa using h
  · have h := (c4_toggle_restoration_policy.2.1 shToggle true false stRec rfl)
    simpa using h

/-- C7: per resolution of a trigger, at most one restore is scheduled, and on
the platform that performs a live read (non-Windows) none is scheduled when
the live read equals the press-time snapshot. -/
theorem c7_restore_at_most_once (sh : Shortcut) (is_windows : Bool)
    (live : Option Bool) (now : Int) (st : TaskState) :
    (finish sh is_windows live now st).2.2.length ≤ 1 ∧
    (∀ r, cancel sh is_windows live st = Except.ok r → r.2.2.length ≤ 1) ∧
    (∀ v, st.toggle_state_at_press = some v →
      (finish sh false (some v) now st).2.2 = []) ∧
    (∀ v r, st.toggle_state_at_press = some v →
      cancel sh false (some v) st = Except.ok r → r.2.2 = []) := by
  have hlen : ∀ (w : Bool) (l : Option Bool) (s : TaskState),
      (restore_requests w sh l s).length ≤ 1 := by
    intro w l s
    simp only [restore_requests]
    split <;> simp
  have hnone : ∀ (v : Bool) (s : TaskState),
      s.toggle_state_at_press = some v →
      restore_requests false sh (some v) s = [] := by
    intro v s hv
    simp [restore_requests, restore_needed, hv]
  refine ⟨?_, fun r hr => ?_, fun v hv => ?_, fun v r hv hr => ?_⟩
  · simp only [finish]
    split
    · exact hlen _ _ _
    · simp
  · cases ht : st.task with
    | none =>
      rw [cancel_none sh is_windows live st ht] at hr
      cases hr
    | some h =>
      rw [cancel_some sh is_windows live st h ht] at hr
      cases hr
      split
      · exact hlen _ _ _
      · simp
  · simp only [finish]
    split
    · exact hnone v _ hv
    · rfl
  · cases ht : st.task with
    | none =>
      rw [cancel_none sh false (some v) st ht] at hr
      cases hr
    | some h =>
      rw [cancel_some sh false (some v) st h ht] at hr
      cases hr
      split
      · exact hnone v _ hv
      · rfl

/-- Witness for C7: finishing the capslock trigger on Linux with live read
equal to the snapshot schedules no restore, and the restore list of a finish
never has more than one entry. -/
theorem c7_restore_at_most_once_witness :
    stRec.toggle_state_at_press = some true ∧
    (finish shToggle false (some true) 40 stRec).2.2 = [] ∧
    (finish shToggle true none 40 stRec).2.2.length ≤ 1 := by
  refine ⟨rfl, ?_, ?_⟩
  · exact (c7_restore_at_most_once shToggle false (some true) 40 stRec).2.2.1
      true rfl
  · exact (c7_restore_at_most_once shToggle true none 40 stRec).1

/-- C10: `ShortcutTask.cancel` dereferences the capture handle with no guard:
it raises exactly when the handle is `None`, and succeeds otherwise. `launch`
sets `is_recording` before assigning the handle, so the mid-launch state has
`is_recording = true` with the handle still clear, and `cancel` raises there;
only a completed `launch` makes `cancel` safe. -/
theorem c10_cancel_handle_dereference (sh : Shortcut) (is_windows : Bool)
    (toggle_read live : Option Bool) (now : Int) (st : TaskState) :
    ((∃ e, cancel sh is_windows live st = Except.error e) ↔ st.task = none) ∧
    (launch_mid sh is_windows toggle_read now st).is_recording = true ∧
    (launch_mid sh is_windows toggle_read now st).task = st.task ∧
    (st.task = none →
      ∃ e, cancel sh is_windows live
        (launch_mid sh is_windows toggle_read now st) = Except.error e) ∧
    (∀ handle, ∃ r,
      cancel sh is_windows live
        (launch sh is_windows toggle_read now handle st).1 = Except.ok r) := by
  have htask : (launch_mid sh is_windows toggle_read now st).task = st.task := by
    simp only [launch_mid]
    split <;> rfl
  have herr : ∀ (s : TaskState), s.task = none →
      ∃ e, cancel sh is_windows live s = Except.error e := by
    intro s hs
    exact ⟨_, cancel_none sh is_windows live s hs⟩
  refine ⟨⟨?_, herr st⟩, ?_, htask, ?_, fun handle => ?_⟩
  · rintro ⟨e, he⟩
    cases ht : st.task with
    | none => rfl
    | some h =>
      rw [cancel_some sh is_windows live st h ht] at he
      cases he
  · rfl
  · intro hs
    exact herr _ (htask.trans hs)
  · have ht : (launch sh is_windows toggle_read now handle st).1.task =
        some handle := rfl
    rw [cancel_some sh is_windows live _ handle ht]
    exact ⟨_, rfl⟩

/-- Witness for C10: the fresh task state has no handle, so cancelling the
mid-launch state raises; cancelling after a completed launch succeeds. -/
theorem c10_cancel_handle_dereference_witness :
    TaskState.init.task = none ∧
    (∃ e, cancel shMouse true none
      (launch_mid shMouse true none 5 TaskState.init) = Except.error e) ∧
    (∃ r, cancel shMouse true none
      (launch shMouse true none 5 7 TaskState.init).1 = Except.ok r) := by
  refine ⟨rfl, ?_, ?_⟩
  · exact (c10_cancel_handle_dereference shMouse true none none 5
      TaskState.init).2.2.2.1 rfl
  · exact (c10_cancel_handle_dereference shMouse true none none 5
      TaskState.init).2.2.2.2 7

/-- C5 counterexample: the claim covers mouse events, but
`create_mouse_filter` performs no `_check_restoring` call: with "x1" in the
Restoring Set (and not emulating), an x1 up event is routed to the trigger
task and the Restoring Set entry is not cleared — it is not swallowed. -/
theorem c5_restoring_mouse_counterexample :
    ("x1" ∈ mRestoringX1.restoring) ∧
    (mouse_filter_win mRestoringX1 "x1" Dir.up).2 = Decision.routed Dir.up ∧
    (mouse_filter_win mRestoringX1 "x1" Dir.up).1.restoring =
      mRestoringX1.restoring := by
  refine ⟨by decide, ?_, ?_⟩ <;> rfl

/-- C5 (amended): Restoring-Set swallow holds for keyboard events only (and
only when the name is not simultaneously marked emulating, since
`_check_emulating` runs first): the event is swallowed, an "up" clears the
entry and a "down" leaves it; the mouse filter never consults the Restoring
Set. -/
theorem c5_restoring_swallow_keyboard (m : MgrState) (name : String)
    (hres : name ∈ m.restoring) (hnemu : name ∉ m.emulating) :
    (∀ dir, (keyboard_filter_win m name dir).2 = Decision.swallowedRestoring) ∧
    (keyboard_filter_win m name Dir.up).1.restoring = m.restoring.erase name ∧
    (keyboard_filter_win m name Dir.down).1.restoring = m.restoring ∧
    (keyboard_lib_keydown m name).2 = Decision.swallowedRestoring ∧
    (keyboard_lib_keydown m name).1 = m ∧
    (keyboard_lib_keyup m name).2 = Decision.swallowedRestoring ∧
    (keyboard_lib_keyup m name).1.restoring = m.restoring.erase name := by
  have hemu : is_emulating m.emulating name = false := by
    simp [is_emulating, hnemu]
  refine ⟨fun dir => ?_, ?_, ?_, ?_, ?_, ?_, ?_⟩ <;>
    first
      | (cases dir <;>
          simp [keyboard_filter_win, check_emulating, check_restoring,
            is_emulating, hnemu, hres])
      | simp [keyboard_filter_win, keyboard_lib_keydown, keyboard_lib_keyup,
          check_emulating, check_restoring, is_emulating, hnemu, hres]

/-- Witness for C5 (amended): "caps lock" restoring and not emulating: the
Windows keyboard filter swallows its up event and clears the entry. -/
theorem c5_restoring_swallow_keyboard_witness :
    ("caps lock" ∈ (⟨∅, {"caps lock"}, []⟩ : MgrState).restoring) ∧
    ((keyboard_filter_win ⟨∅, {"caps lock"}, []⟩ "caps lock" Dir.up).2 =
      Decision.swallowedRestoring) := by
  refine ⟨by decide, ?_⟩
  exact ((c5_restoring_swallow_keyboard ⟨∅, {"caps lock"}, []⟩ "caps lock"
    (by decide) (by decide)).1 Dir.up)

/-- C6 counterexample: the dispatch boundary has no exception handler. With
the x1 hold trigger recording but its capture handle absent, the x1 up event
at tick 1 makes `task.cancel()` raise, and the error propagates out of the
mouse filter instead of being caught and skipped. -/
theorem c6_dispatch_exception_counterexample :
    mouse_filter_win_full mGhost "x1" Dir.up 1 true none =
      Except.error "AttributeError: NoneType object has no attribute cancel" := by
  rfl

/-- C6 (amended): the dispatch filters install no per-event exception
handler: whenever the routed keyup handling raises, the exception propagates
unchanged out of the mouse filter boundary (the event is not converted to a
logged, skipped event). -/
theorem c6_no_boundary_handler (m : MgrState) (button : String) (now : Int)
    (is_windows : Bool) (live : Option Bool) (sh : Shortcut) (st : TaskState)
    (e : String)
    (hnemu : button ∉ m.emulating)
    (hfind : find_task m.tasks button = some (sh, st))
    (herr : handle_mouse_keyup sh st now is_windows live = Except.error e) :
    mouse_filter_win_full m button Dir.up now is_windows live =
      Except.error e := by
  have hemu : is_emulating m.emulating button = false := by
    simp [is_emulating, hnemu]
  simp [mouse_filter_win_full, check_emulating, hemu, hfind, herr]

/-- Witness for C6 (amended): the concrete ghost state above. -/
theorem c6_no_boundary_handler_witness :
    mouse_filter_win_full mGhost "x1" Dir.up 1 true none =
      Except.error "AttributeError: NoneType object has no attribute cancel" :=
  c6_no_boundary_handler mGhost "x1" 1 true none shMouse stGhost
    "AttributeError: NoneType object has no attribute cancel"
    (by decide) rfl rfl

/-- C8 counterexample: `emulate_mouse_click` marks the emulating flag and
returns without unmarking it — after the operation completes the button is
still flagged, so the claimed "marks and then unmarks" does not hold. -/
theorem c8_flag_left_set_counterexample :
    is_emulating (emulate_mouse_click ∅ "x1") "x1" = true := by
  decide

/-- C8 (amended): `emulate_mouse_click` is a no-op on the OS that marks the
emulating flag and leaves it set when it returns; the flag is cleared by the
dispatcher when the next "up" event for that button is observed (the next
down/up pair being swallowed on the way), so the self-suppression is bounded
by one observed press/release cycle rather than permanent. -/
theorem c8_mouse_click_flag (emu : EmuSet) (b : String) (res : Finset String)
    (tasks : List (String × Shortcut × TaskState)) :
    is_emulating (emulate_mouse_click emu b) b = true ∧
    (mouse_filter_win ⟨emulate_mouse_click emu b, res, tasks⟩ b Dir.down).2 =
      Decision.swallowedEmulating ∧
    (mouse_filter_win ⟨emulate_mouse_click emu b, res, tasks⟩ b Dir.down).1.emulating =
      emulate_mouse_click emu b ∧
    (mouse_filter_win ⟨emulate_mouse_click emu b, res, tasks⟩ b Dir.up).2 =
      Decision.swallowedEmulating ∧
    b ∉ (mouse_filter_win ⟨emulate_mouse_click emu b, res, tasks⟩ b Dir.up).1.emulating := by
  have hb : is_emulating (emulate_mouse_click emu b) b = true := by
    simp [is_emulating, emulate_mouse_click]
  refine ⟨hb, ?_, ?_, ?_, ?_⟩ <;>
    simp [mouse_filter_win, check_emulating, clear_emulating_flag, hb,
      Finset.not_mem_erase]

/-- `combo_scan` on a single chord: the new active flag is the recomputed
membership test, and the synthetic events are exactly the edge transitions. -/
theorem combo_scan_single (pressed : Finset String) (c : ComboDef)
    (act : Bool) :
    combo_scan pressed [(c, act)] =
      ([(c, decide (c.keys ⊆ pressed))],
        if decide (c.keys ⊆ pressed) && !act then [(c.key, Dir.down)]
        else if !(decide (c.keys ⊆ pressed)) && act then [(c.key, Dir.up)]
        else []) := by
  cases h : decide (c.keys ⊆ pressed) <;> cases act <;>
    simp [combo_scan, h]

/-- `_combo_hook_cb` on a single chord: the pressed set advances by
`pressed_step`, the active flag by `combo_active_step`, and the synthetic
events are exactly the edge transitions. -/
theorem combo_hook_cb_single (pressed : Finset String) (c : ComboDef)
    (act : Bool) (e : RawKeyEvent) :
    combo_hook_cb pressed [(c, act)] e =
      (pressed_step pressed e, [(c, combo_active_step c pressed act e)],
        if combo_active_step c pressed act e && !act then [(c.key, Dir.down)]
        else if !(combo_active_step c pressed act e) && act then
          [(c.key, Dir.up)]
        else []) := by
  obtain ⟨nm, dir⟩ := e
  cases nm with
  | none =>
    cases act <;> simp [combo_hook_cb, pressed_step, combo_active_step]
  | some nm0 =>
    by_cases hnm : nm0 = ""
    · cases act <;>
        simp [combo_hook_cb, pressed_step, combo_active_step, hnm]
    · simp [combo_hook_cb, hnm, combo_scan_single, combo_active_step]

/-- Down count distributes over append. -/
theorem count_downs_append (l1 l2 : List (String × Dir)) :
    count_downs (l1 ++ l2) = count_downs l1 + count_downs l2 := by
  simp [count_downs, List.filter_append]

/-- Up count distributes over append. -/
theorem count_ups_append (l1 l2 : List (String × Dir)) :
    count_ups (l1 ++ l2) = count_ups l1 + count_ups l2 := by
  simp [count_ups, List.filter_append]

/-- Down count of one step's synthetic events is the rising-edge indicator. -/
theorem count_downs_step (k : String) (a1 act : Bool) :
    count_downs (if a1 && !act then [(k, Dir.down)]
      else if !a1 && act then [(k, Dir.up)] else []) =
      if !act && a1 then 1 else 0 := by
  cases a1 <;> cases act <;> simp [count_downs]

/-- Up count of one step's synthetic events is the falling-edge indicator. -/
theorem count_ups_step (k : String) (a1 act : Bool) :
    count_ups (if a1 && !act then [(k, Dir.down)]
      else if !a1 && act then [(k, Dir.up)] else []) =
      if act && !a1 then 1 else 0 := by
  cases a1 <;> cases act <;> simp [count_ups]

/-- Length of one step's synthetic events is the sum of both edge
indicators. -/
theorem length_step (k : String) (a1 act : Bool) :
    (if a1 && !act then [(k, Dir.down)]
      else if !a1 && act then [(k, Dir.up)] else []).length =
      (if !act && a1 then 1 else 0) + (if act && !a1 then 1 else 0) := by
  cases a1 <;> cases act <;> simp

/-- C9: chord edge-triggering. Over any raw key event sequence, the chord
tracker fires exactly one synthetic down per false-to-true transition of the
chord's active status, exactly one synthetic up per true-to-false
transition, and nothing at all on events where the status does not change
(the total synthetic event count equals the number of edges); the active
status is the set-membership test `keys ⊆ pressed`, independent of the order
the member keys were pressed. -/
theorem c9_chord_edge_triggering (c : ComboDef) (pressed : Finset String)
    (act : Bool) (es : List RawKeyEvent) :
    count_downs (combo_run pressed [(c, act)] es).2.2 =
      rising_edges act (combo_act_trace c pressed act es) ∧
    count_ups (combo_run pressed [(c, act)] es).2.2 =
      falling_edges act (combo_act_trace c pressed act es) ∧
    (combo_run pressed [(c, act)] es).2.2.length =
      rising_edges act (combo_act_trace c pressed act es) +
        falling_edges act (combo_act_trace c pressed act es) := by
  induction es generalizing pressed act with
  | nil =>
    simp [combo_run, combo_act_trace, count_downs, count_ups, rising_edges,
      falling_edges]
  | cons e es ih =>
    obtain ⟨ih1, ih2, ih3⟩ :=
      ih (pressed_step pressed e) (combo_active_step c pressed act e)
    have harith : ∀ (a b r f : Nat), a + b + (r + f) = a + r + (b + f) := by
      omega
    refine ⟨?_, ?_, ?_⟩ <;>
      simp only [combo_run, combo_hook_cb_single, combo_act_trace,
        rising_edges, falling_edges, count_downs_append, count_ups_append,
        List.length_append, count_downs_step, count_ups_step, length_step,
        ih1, ih2, ih3, harith]

end CapsWriter
